import Mathlib

/-!
Shallow embedding of the `secenv` secret-resolution engine
(crates/secenv/src/{manifest,pgp,gcp,aws,gpg,main}.rs and the
tagged-union codec in crates/secenv-derive/src/lib.rs plus
crates/secenv/src/adapter/hocon.rs), together with theorems settling
the specification claims.

External collaborators (the `base64` and `semver` crates, the
sequoia-openpgp streaming decryptor, subprocess execution, the
filesystem and the password prompt) are modelled: pure library
behaviour (base64, semver, UTF-8 validation) is embedded faithfully
from the libraries' documented semantics, and genuinely external
effects (subprocess runs, prompts, certificate parsing) are passed in
as explicit oracle functions so that "no external call happens" is
expressible as independence from the oracle.
-/

namespace Secenv

/-! ## Value model (manifest.rs lines 25-113)

The `*Wrapper` structs in manifest.rs are serde `#[serde(flatten)]`
artifacts holding a single `inner` field; the embedding works with the
inner enums directly. -/

inductive EncodedValue where
  | Literal (value : String)
  | Base64 (value : String)
deriving DecidableEq, Repr

inductive SecretAllocation where
  | Literal (value : EncodedValue)
  | File (path : String)
  | Gpg (fingerprint : String)
  | Gcp (secret : String) (version : Option String)
deriving DecidableEq, Repr

inductive Secret where
  | PGP (allocation : SecretAllocation)
deriving DecidableEq, Repr

inductive Content where
  | Plain (value : EncodedValue)
  | Secure (secret : Secret) (value : EncodedValue)
deriving DecidableEq, Repr

/-! ## base64 standard-engine decoding

Model of `base64::engine::general_purpose::STANDARD.decode` as used by
`EncodedValue::get_value`: standard alphabet, canonical required
padding (input length a multiple of 4, `=` only as final padding), and
rejection of non-zero trailing bits. -/

def b64CharVal (c : Char) : Option Nat :=
  if 'A' ≤ c ∧ c ≤ 'Z' then some (c.toNat - 'A'.toNat)
  else if 'a' ≤ c ∧ c ≤ 'z' then some (c.toNat - 'a'.toNat + 26)
  else if '0' ≤ c ∧ c ≤ '9' then some (c.toNat - '0'.toNat + 52)
  else if c = '+' then some 62
  else if c = '/' then some 63
  else none

/-- Decode a list of base64 symbols in blocks of four characters.
The final block may carry one or two `=` padding characters; unused
trailing bits must be zero (canonical decoding). -/
def b64DecodeBlocks : List Char → Option (List Nat)
  | [] => some []
  | c1 :: c2 :: c3 :: c4 :: rest =>
    match b64CharVal c1, b64CharVal c2 with
    | some v1, some v2 =>
      if c3 = '=' then
        if c4 = '=' ∧ rest = [] ∧ v2 % 16 = 0 then
          some [v1 * 4 + v2 / 16]
        else none
      else
        match b64CharVal c3 with
        | some v3 =>
          if c4 = '=' then
            if rest = [] ∧ v3 % 4 = 0 then
              some [v1 * 4 + v2 / 16, (v2 % 16) * 16 + v3 / 4]
            else none
          else
            match b64CharVal c4 with
            | some v4 =>
              (b64DecodeBlocks rest).map
                (fun bs => (v1 * 4 + v2 / 16) :: ((v2 % 16) * 16 + v3 / 4) ::
                  ((v3 % 4) * 64 + v4) :: bs)
            | none => none
        | none => none
    | _, _ => none
  | _ => none

def base64Decode (s : String) : Option (List Nat) :=
  b64DecodeBlocks s.data

/-! ## UTF-8 validation and decoding

Model of `String::from_utf8` (used after base64 decoding and on
subprocess output): strict UTF-8, rejecting continuation-byte starts,
overlong encodings, surrogate code points and values above U+10FFFF. -/

def isUtf8Cont (b : Nat) : Bool := 0x80 ≤ b ∧ b < 0xC0

def utf8DecodeChars : List Nat → Option (List Char)
  | [] => some []
  | b1 :: rest =>
    if b1 < 0x80 then
      (utf8DecodeChars rest).map (fun cs => Char.ofNat b1 :: cs)
    else if b1 < 0xC2 then
      none
    else if b1 < 0xE0 then
      match rest with
      | b2 :: rest2 =>
        if isUtf8Cont b2 then
          (utf8DecodeChars rest2).map
            (fun cs => Char.ofNat ((b1 - 0xC0) * 64 + (b2 - 0x80)) :: cs)
        else none
      | [] => none
    else if b1 < 0xF0 then
      match rest with
      | b2 :: b3 :: rest3 =>
        if isUtf8Cont b2 ∧ isUtf8Cont b3 then
          let cp := (b1 - 0xE0) * 4096 + (b2 - 0x80) * 64 + (b3 - 0x80)
          if 0x800 ≤ cp ∧ ¬(0xD800 ≤ cp ∧ cp ≤ 0xDFFF) then
            (utf8DecodeChars rest3).map (fun cs => Char.ofNat cp :: cs)
          else none
        else none
      | _ => none
    else if b1 < 0xF5 then
      match rest with
      | b2 :: b3 :: b4 :: rest4 =>
        if isUtf8Cont b2 ∧ isUtf8Cont b3 ∧ isUtf8Cont b4 then
          let cp := (b1 - 0xF0) * 262144 + (b2 - 0x80) * 4096 +
            (b3 - 0x80) * 64 + (b4 - 0x80)
          if 0x10000 ≤ cp ∧ cp ≤ 0x10FFFF then
            (utf8DecodeChars rest4).map (fun cs => Char.ofNat cp :: cs)
          else none
        else none
      | _ => none
    else none

def utf8Decode (bytes : List Nat) : Option String :=
  (utf8DecodeChars bytes).map String.mk

/-! ## EncodedValue::get_value (manifest.rs lines 115-128)

Errors are modelled as the `anyhow` context strings the code attaches. -/

def EncodedValue.get_value : EncodedValue → Except String String
  | .Literal value => .ok value
  | .Base64 value =>
    match base64Decode value with
    | none => .error "Failed to decode base64 value"
    | some decoded =>
      match utf8Decode decoded with
      | none => .error "Decoded value is not valid UTF-8"
      | some s => .ok s

/-! ## Semantic versions

Model of the `semver` crate's `Version` as used by
`Manifest::validate_version` (manifest.rs lines 186-222): strict
`major.minor.patch` with optional `-prerelease` and `+build`.  Build
metadata is validated and then discarded; the crate additionally uses
build metadata as a final ordering tiebreak, which no comparison in
this development can reach (every comparison below is already decided
at the major/minor/patch/prerelease level). -/

inductive PreId where
  | num (n : Nat)
  | alnum (s : String)
deriving DecidableEq, Repr

structure SemVer where
  major : Nat
  minor : Nat
  patch : Nat
  pre : List PreId
deriving DecidableEq, Repr

def splitOnChar (sep : Char) : List Char → List (List Char)
  | [] => [[]]
  | c :: cs =>
    let r := splitOnChar sep cs
    if c = sep then [] :: r
    else
      match r with
      | g :: gs => (c :: g) :: gs
      | [] => [[c]]

/-- Strict numeric component: nonempty, digits only, no leading zero. -/
def parseNumCore (cs : List Char) : Option Nat :=
  if cs = [] then none
  else if ¬ cs.all Char.isDigit then none
  else if cs.length > 1 ∧ cs.head? = some '0' then none
  else some (cs.foldl (fun n c => n * 10 + (c.toNat - 48)) 0)

/-- A prerelease identifier: nonempty, alphanumerics and hyphens; an
all-digit identifier is numeric and must not carry a leading zero. -/
def parsePreId (cs : List Char) : Option PreId :=
  if cs = [] then none
  else if ¬ cs.all (fun c => c.isAlphanum ∨ c = '-') then none
  else if cs.all Char.isDigit then
    (parseNumCore cs).map .num
  else some (.alnum (String.mk cs))

def validBuildId (cs : List Char) : Bool :=
  cs ≠ [] ∧ cs.all (fun c => c.isAlphanum ∨ c = '-')

def parsePreList (cs : List Char) : Option (List PreId) :=
  (splitOnChar '.' cs).mapM parsePreId

def semverParse (s : String) : Option SemVer :=
  let cs := s.data
  let beforePlus := cs.takeWhile (fun c => c ≠ '+')
  let plusRest := cs.dropWhile (fun c => c ≠ '+')
  let buildOk :=
    match plusRest with
    | [] => true
    | _ :: build => (splitOnChar '.' build).all validBuildId
  if !buildOk then none
  else
    let core := beforePlus.takeWhile (fun c => c ≠ '-')
    let dashRest := beforePlus.dropWhile (fun c => c ≠ '-')
    let preParsed : Option (List PreId) :=
      match dashRest with
      | [] => some []
      | _ :: pre => parsePreList pre
    match preParsed with
    | none => none
    | some pre =>
      match splitOnChar '.' core with
      | [a, b, c] =>
        match parseNumCore a, parseNumCore b, parseNumCore c with
        | some major, some minor, some patch =>
          some { major := major, minor := minor, patch := patch, pre := pre }
        | _, _, _ => none
      | _ => none

def preIdLtB : PreId → PreId → Bool
  | .num a, .num b => a < b
  | .num _, .alnum _ => true
  | .alnum _, .num _ => false
  | .alnum a, .alnum b => decide (a < b)

def preListLtB : List PreId → List PreId → Bool
  | _, [] => false
  | [], _ :: _ => true
  | a :: as, b :: bs => preIdLtB a b || (a = b && preListLtB as bs)

/-- Prerelease precedence: a release (empty prerelease) outranks every
prerelease of the same numeric core. -/
def preLtB (x y : List PreId) : Bool :=
  match x.isEmpty, y.isEmpty with
  | true, _ => false
  | false, true => true
  | false, false => preListLtB x y

def semverLtB (a b : SemVer) : Bool :=
  a.major < b.major ||
    (a.major = b.major &&
      (a.minor < b.minor ||
        (a.minor = b.minor &&
          (a.patch < b.patch ||
            (a.patch = b.patch && preLtB a.pre b.pre)))))

/-! ## Manifest::validate_version (manifest.rs lines 186-222)

`env!("CARGO_PKG_VERSION")` is a compile-time constant of the binary;
it is passed in as the `cliVersionStr` parameter.  The function
returns the emitted-warning flag on success, so that the non-fatal
minor-version warning is observable in the model. -/

def validate_version (cliVersionStr : String) (manifestVersion : String) :
    Except String Bool :=
  match semverParse cliVersionStr with
  | none => .error "Failed to parse CLI version"
  | some cliVersion =>
    if cliVersionStr = "0.0.0" then .ok false
    else
      match semverParse manifestVersion with
      | none => .error ("Invalid version format in config: " ++ manifestVersion)
      | some configVersion =>
        if configVersion.major ≠ cliVersion.major then
          .error "Major version mismatch."
        else if semverLtB cliVersion configVersion then
          .error "Config version is newer than CLI version. Please upgrade the CLI."
        else
          .ok (decide (configVersion.minor > cliVersion.minor))

/-! ## External subprocess boundary

A subprocess invocation is modelled as an oracle from the planned
command line to a captured `ExecOutput` (exit status, raw stdout
bytes, decoded stderr).  A resolution step that never consults the
oracle is one that spawns no subprocess. -/

structure ExecOutput where
  success : Bool
  stdout : List Nat
  stderr : String

/-- `str.trim_end_matches(['\n', '\r'])`: drop every trailing newline
or carriage-return character. -/
def trimEndNewlineCR (s : String) : String :=
  String.mk ((s.data.reverse.dropWhile (fun c => c = '\n' || c = '\r')).reverse)

/-- Shared tail of `GcpSecretManager::access_secret` (gcp.rs lines
43-49) and `AwsSecretManager::access_secret` (aws.rs lines 61-67):
non-zero exit is a backend error carrying stderr; stdout is validated
as UTF-8 and returned with trailing newline characters stripped. -/
def postprocessCliOutput (failMsg : String) (out : ExecOutput) :
    Except String String :=
  if !out.success then .error (failMsg ++ out.stderr)
  else
    match utf8Decode out.stdout with
    | none => .error "Secret value is not valid UTF-8"
    | some value => .ok (trimEndNewlineCR value)

/-! ## GcpSecretManager (gcp.rs) -/

structure GcpSecretSpec where
  secret : String
  version : Option String
deriving DecidableEq, Repr

/-- `fqn.split('/')`: every occurrence of the separator splits, empty
pieces are kept (`""` yields `[""]`). -/
def splitSlash (fqn : String) : List String :=
  (splitOnChar '/' fqn.data).map String.mk

/-- `parse_project_and_secret` (gcp.rs lines 63-74). -/
def parse_project_and_secret (fqn : String) : Except String (String × String) :=
  let parts := splitSlash fqn
  if parts.length < 4 ∨ parts[0]? ≠ some "projects" ∨ parts[2]? ≠ some "secrets" then
    .error ("Invalid secret resource: " ++ fqn)
  else
    match parts[1]?, parts[3]? with
    | some project, some secretName => .ok (project, secretName)
    | _, _ => .error ("Invalid secret resource: " ++ fqn)

/-- The argv handed to the `gcloud` CLI. -/
structure GcloudCall where
  version : String
  secretName : String
  project : String
deriving DecidableEq, Repr

/-- The pure prefix of `GcpSecretManager::access_secret` (gcp.rs lines
22-34): choose the version, parse the fully qualified name, and plan
the `gcloud` invocation.  The subprocess is spawned only if this
returns `ok`. -/
def gcpPlan (spec : GcpSecretSpec) : Except String GcloudCall :=
  let version := (spec.version.getD "latest")
  match parse_project_and_secret spec.secret with
  | .error _ =>
    .error "Invalid GCP secret format. Expected 'projects/<project>/secrets/<name>'"
  | .ok (project, secretName) =>
    .ok { version := version, secretName := secretName, project := project }

/-- `GcpSecretManager::access_secret` (gcp.rs lines 22-50), with the
`gcloud` subprocess as an oracle. -/
def gcp_access_secret (run : GcloudCall → ExecOutput) (spec : GcpSecretSpec) :
    Except String String :=
  match gcpPlan spec with
  | .error e => .error e
  | .ok call => postprocessCliOutput "gcloud failed: " (run call)

/-- The resource-identifier shape stated by the spec:
`projects/<project>/secrets/<name>[/versions/<version>]`.  This
definition follows the spec's words, for comparison against
`parse_project_and_secret`, which is translated from the source. -/
def gcpSpecResourceForm (fqn : String) : Bool :=
  match splitSlash fqn with
  | ["projects", _, "secrets", _] => true
  | ["projects", _, "secrets", _, "versions", _] => true
  | _ => false

/-! ## AwsSecretManager (aws.rs) -/

structure AwsSecretSpec where
  secret : String
  version : Option String
  region : Option String
deriving DecidableEq, Repr

/-- The argv handed to the `aws` CLI (aws.rs lines 30-52): a version
made only of ASCII uppercase letters and underscores is passed as a
version stage, any other version as a version id. -/
def aws_cli_args (spec : AwsSecretSpec) : List String :=
  ["secretsmanager", "get-secret-value", "--secret-id", spec.secret,
    "--query", "SecretString", "--output", "text"] ++
  (match spec.version with
    | some v =>
      if v.data.all (fun c => c.isUpper || c = '_') then ["--version-stage", v]
      else ["--version-id", v]
    | none => []) ++
  (match spec.region with
    | some r => ["--region", r]
    | none => [])

/-- `AwsSecretManager::access_secret` (aws.rs lines 29-68), with the
`aws` subprocess as an oracle. -/
def aws_access_secret (run : List String → ExecOutput) (spec : AwsSecretSpec) :
    Except String String :=
  postprocessCliOutput "aws CLI failed: " (run (aws_cli_args spec))

/-! ## PGP engine (pgp.rs)

Certificates, key derivation, packet parsing and session-key recovery
are sequoia-openpgp operations external to this repository; they are
modelled abstractly.  A certificate is its primary fingerprint plus
its list of keys; each key carries the attributes the source code
inspects (secret material present, accepted by the standard policy,
alive, revoked, secret material password-encrypted) and an abstract
identity used by the derivation oracles. -/

structure SubKey where
  hasSecret : Bool
  policyOk : Bool
  alive : Bool
  revoked : Bool
  encrypted : Bool
  keyId : Nat
deriving DecidableEq, Repr

structure Cert where
  fingerprint : String
  keys : List SubKey
deriving DecidableEq, Repr

structure CachedKey where
  cert : Cert
  password : Option String
deriving DecidableEq, Repr

structure UnlockedKey where
  cert : Cert
  fingerprint : String
  password : Option String
deriving DecidableEq, Repr

/-- The `PgpManager` cache: `HashMap<String, CachedKey>` as an
association list where a fresh insertion shadows older entries. -/
abbrev PgpState := List (String × CachedKey)

/-- Oracles for the operations the PGP engine delegates to
sequoia-openpgp and to the terminal. -/
structure PgpWorld where
  parseCert : String → Except String Cert
  prompt : String → String
  deriveWithPassword : Nat → String → Option Nat
  deriveUnencrypted : Nat → Option Nat
  parseMessage : String → Except String (List Nat)
  pkeskDecrypt : Nat → Nat → Option Nat
  sessionAccept : Nat → Bool
  plaintext : String → Except String String

/-- The protection check of `unlock_key` (pgp.rs lines 91-97): iterate
`cert.keys().secret().with_policy(..)` and look for an encrypted
secret key. -/
def needs_password (cert : Cert) : Bool :=
  (cert.keys.filter (fun k => k.hasSecret && k.policyOk)).any (·.encrypted)

/-- `PgpManager::unlock_key` (pgp.rs lines 71-119).  The third result
component counts the password prompts issued by the call. -/
def unlock_key (w : PgpWorld) (cache : PgpState) (material : String) :
    Except String (UnlockedKey × PgpState × Nat) :=
  match w.parseCert material with
  | .error _ => .error "Failed to parse PGP private key"
  | .ok cert =>
    let fp := cert.fingerprint
    match List.lookup fp cache with
    | some ck =>
      .ok ({ cert := ck.cert, fingerprint := fp, password := ck.password }, cache, 0)
    | none =>
      let np := needs_password cert
      let password := if np then some (w.prompt fp) else none
      .ok ({ cert := cert, fingerprint := fp, password := password },
        (fp, { cert := cert, password := password }) :: cache,
        if np then 1 else 0)

/-- The candidate iterator of `CachedKeyHelper::decrypt` (pgp.rs lines
183-190): `keys().secret().with_policy(..).alive().revoked(false)`. -/
def pgpCandidates (cert : Cert) : List SubKey :=
  cert.keys.filter (fun k => k.hasSecret && k.policyOk && k.alive && !k.revoked)

/-- Inner packet loop (pgp.rs lines 215-221): a keypair succeeds when
some proposed PKESK packet yields a session key that the decryption
callback accepts. -/
def keypairUnlocks (w : PgpWorld) (pkesks : List Nat) (kp : Nat) : Bool :=
  pkesks.any (fun pk =>
    match w.pkeskDecrypt pk kp with
    | some sk => w.sessionAccept sk
    | none => false)

/-- Candidate loop of `CachedKeyHelper::decrypt` (pgp.rs lines
183-223): an encrypted key without a cached password is skipped; a
failed derivation (wrong password, unusable material) is skipped; the
first keypair accepted by the callback wins. -/
def helperLoop (w : PgpWorld) (password : Option String) (pkesks : List Nat) :
    List SubKey → Bool
  | [] => false
  | k :: rest =>
    let keypairResult : Option Nat :=
      if k.encrypted then
        match password with
        | some pw => w.deriveWithPassword k.keyId pw
        | none => none
      else w.deriveUnencrypted k.keyId
    match keypairResult with
    | some kp =>
      if keypairUnlocks w pkesks kp then true else helperLoop w password pkesks rest
    | none => helperLoop w password pkesks rest

/-- `CachedKeyHelper::decrypt` (pgp.rs lines 174-227): returns the
certificate when some candidate produced an accepted session key. -/
def helper_decrypt (w : PgpWorld) (cert : Cert) (password : Option String)
    (pkesks : List Nat) : Option Cert :=
  if helperLoop w password pkesks (pgpCandidates cert) then some cert else none

/-- `PgpManager::decrypt` (pgp.rs lines 121-144).  The final error for
candidate exhaustion is modelled from the spec: the sequoia-openpgp
streaming `Decryptor` (not part of this repository's sources) drives
`CachedKeyHelper::decrypt` and, when no session key was accepted,
fails with "unable to decrypt: no matching key found". -/
def pgp_manager_decrypt (w : PgpWorld) (cache : PgpState)
    (privateKeyAsc encryptedData : String) :
    Except String (String × PgpState × Nat) :=
  match unlock_key w cache privateKeyAsc with
  | .error e => .error e
  | .ok (uk, cache1, n) =>
    match w.parseMessage encryptedData with
    | .error _ => .error "Failed to parse encrypted PGP message"
    | .ok pkesks =>
      match helper_decrypt w uk.cert uk.password pkesks with
      | some _ =>
        match w.plaintext encryptedData with
        | .ok s => .ok (s, cache1, n)
        | .error e => .error e
      | none => .error "unable to decrypt: no matching key found"

/-! ## GpgManager (gpg.rs), filesystem reads and backend bundle -/

/-- `GpgManager::export_private_key` (gpg.rs lines 24-62): the `gpg`
subprocess as an oracle keyed by the fingerprint; an export whose
trimmed output is empty is an error even on exit success. -/
def gpg_export_private_key (run : String → ExecOutput) (fingerprint : String) :
    Except String String :=
  let out := run fingerprint
  if !out.success then .error ("gpg failed to export private key: " ++ out.stderr)
  else
    match utf8Decode out.stdout with
    | none => .error "GPG private key output is not valid UTF-8"
    | some privateKey =>
      if privateKey.trim.isEmpty then
        .error ("No private key found for fingerprint: " ++ fingerprint)
      else .ok privateKey

/-- `GpgManager::decrypt_data` (gpg.rs lines 65-101): the `gpg`
subprocess as an oracle keyed by the ciphertext written to stdin. -/
def gpg_decrypt_data (run : String → ExecOutput) (encryptedData : String) :
    Except String String :=
  let out := run encryptedData
  if !out.success then .error ("GPG failed to decrypt data: " ++ out.stderr)
  else
    match utf8Decode out.stdout with
    | none => .error "GPG decrypted output is not valid UTF-8"
    | some s => .ok s

structure Backends where
  fileRead : String → Except String String
  gpgExportRun : String → ExecOutput
  gpgDecryptRun : String → ExecOutput
  gcloudRun : GcloudCall → ExecOutput

/-- `SecretAllocation::get_value` (manifest.rs lines 130-155). -/
def SecretAllocation.get_value (bk : Backends) :
    SecretAllocation → Except String String
  | .Literal encodedValue => encodedValue.get_value
  | .File path =>
    match bk.fileRead path with
    | .error _ => .error ("Failed to read file: " ++ path)
    | .ok s => .ok s
  | .Gpg fingerprint => gpg_export_private_key bk.gpgExportRun fingerprint
  | .Gcp secret version =>
    gcp_access_secret bk.gcloudRun { secret := secret, version := version }

/-- `Content::get_value` (manifest.rs lines 157-184), threading the
`PgpManager` cache. -/
def Content.get_value (w : PgpWorld) (bk : Backends) (cache : PgpState) :
    Content → Except String (String × PgpState)
  | .Plain encodedValue => (encodedValue.get_value).map (fun s => (s, cache))
  | .Secure secret value =>
    match value.get_value with
    | .error e => .error e
    | .ok encryptedData =>
      match secret with
      | .PGP alloc =>
        match alloc with
        | .Gpg _ =>
          (gpg_decrypt_data bk.gpgDecryptRun encryptedData).map (fun s => (s, cache))
        | _ =>
          match alloc.get_value bk with
          | .error e => .error e
          | .ok pgpKey =>
            match pgp_manager_decrypt w cache pgpKey encryptedData with
            | .ok (s, cache1, _) => .ok (s, cache1)
            | .error e => .error e

/-! ## The Unlock driver (main.rs lines 90-118)

The loop over `profile.env.vars` collects the environment mapping in
memory; the loop over `profile.files` resolves each file's content and
immediately writes it to disk.  `HashMap` iteration order is
implementation-defined; the model takes the entries as lists in the
iteration order of one run.  The `from`-location imports (main.rs
lines 69-89) precede both loops and are independent of Content
resolution, so they are not modelled.  The environment mapping escapes
the process (child spawn or stdout print, main.rs lines 120-131) only
when the overall result is `ok`. -/

def resolveVarsLoop (w : PgpWorld) (bk : Backends) (cache : PgpState) :
    List (String × Content) → Except String (List (String × String) × PgpState)
  | [] => .ok ([], cache)
  | (key, content) :: rest =>
    match content.get_value w bk cache with
    | .error e => .error e
    | .ok (v, cache1) =>
      (resolveVarsLoop w bk cache1 rest).map
        (fun r => ((key, v) :: r.1, r.2))

/-- The files loop: the second component is the list of file writes
performed on disk, in order, including those performed before a
failure aborts the loop. -/
def processFilesLoop (w : PgpWorld) (bk : Backends) (fsExists : String → Bool)
    (force : Bool) (cache : PgpState) :
    List (String × Content) → Except String PgpState × List (String × String)
  | [] => (.ok cache, [])
  | (path, content) :: rest =>
    if fsExists path && !force then
      (.error ("File '" ++ path ++ "' already exists. Use --force to overwrite."), [])
    else
      match content.get_value w bk cache with
      | .error e => (.error e, [])
      | .ok (v, cache1) =>
        let next := processFilesLoop w bk fsExists force cache1 rest
        (next.1, (path, v) :: next.2)

/-- The Unlock command body: resolve all variables, then process all
files.  Result: the environment mapping handed on (only when `ok`)
and the file writes that reached the disk. -/
def run_unlock (w : PgpWorld) (bk : Backends) (fsExists : String → Bool)
    (force : Bool) (vars files : List (String × Content)) :
    Except String (List (String × String)) × List (String × String) :=
  match resolveVarsLoop w bk [] vars with
  | .error e => (.error e, [])
  | .ok (envVars, cache1) =>
    match processFilesLoop w bk fsExists force cache1 files with
    | (.ok _, writes) => (.ok envVars, writes)
    | (.error e, writes) => (.error e, writes)

/-! ## Tagged-union codec
(secenv-derive/src/lib.rs and adapter/hocon.rs)

The input tree supplied by the configuration loader is modelled as a
map-shaped value.  `deserialize_hocon_enum` (hocon.rs lines 12-43)
reads the first key of the map as the variant selector and hands the
associated value to the generated `deserialize_from_map`, which
matches the lowercased selector against the lowercase variant names
(lib.rs lines 56-67); an unmatched selector is an `unknown_variant`
serde error carrying the input name and the full variant-name list,
and an empty map is the custom error "expected enum variant"
(hocon.rs line 35). -/

inductive HoconValue where
  | str (s : String)
  | null
  | obj (entries : List (String × HoconValue))

inductive DecodeError where
  | unknownVariant (got : String) (expected : List String)
  | custom (msg : String)
  | invalidType (msg : String)
  | missingField (name : String)
deriving DecidableEq, Repr

def decodeString : HoconValue → Except DecodeError String
  | .str s => .ok s
  | _ => .error (.invalidType "expected a string")

def decodeOptString : HoconValue → Except DecodeError (Option String)
  | .str s => .ok (some s)
  | .null => .ok none
  | _ => .error (.invalidType "expected a string or null")

/-- `str::to_lowercase` character by character (the variant selectors
this codec handles are ASCII identifiers). -/
def strToLower (s : String) : String :=
  String.mk (s.data.map Char.toLower)

/-- The generated `deserialize_from_map` body (lib.rs lines 56-67):
dispatch on the lowercased selector through the per-variant arm table;
no arm means `unknown_variant(input, all_variant_names)`. -/
def deserialize_from_map {α : Type}
    (arms : List (String × (HoconValue → Except DecodeError α)))
    (variantNames : List String) (variantName : String) (payload : HoconValue) :
    Except DecodeError α :=
  match arms.lookup (strToLower variantName) with
  | some dec => dec payload
  | none => .error (.unknownVariant variantName variantNames)

/-- `deserialize_hocon_enum`'s map visitor (hocon.rs lines 28-37):
the first key is the variant selector; an empty map is the custom
error "expected enum variant". -/
def deserialize_hocon_enum {α : Type}
    (arms : List (String × (HoconValue → Except DecodeError α)))
    (variantNames : List String) : HoconValue → Except DecodeError α
  | .obj [] => .error (.custom "expected enum variant")
  | .obj ((k, v) :: _) => deserialize_from_map arms variantNames k v
  | _ => .error (.invalidType "a HOCON enum object")

/-- The arm the macro generates for single-payload variants of
`EncodedValue` (its two variants both carry one `String`). -/
def decodeEncodedValueHocon : HoconValue → Except DecodeError EncodedValue :=
  deserialize_hocon_enum
    [("literal", fun v => (decodeString v).map .Literal),
      ("base64", fun v => (decodeString v).map .Base64)]
    ["literal", "base64"]

/-- The struct-shaped payload arm generated for `Gpg { fingerprint }`
(lib.rs lines 109-126). -/
def decodeGpgFields (v : HoconValue) : Except DecodeError SecretAllocation :=
  match v with
  | .obj entries =>
    match entries.lookup "fingerprint" with
    | some fv => (decodeString fv).map .Gpg
    | none => .error (.missingField "fingerprint")
  | _ => .error (.invalidType "expected a map of fields")

/-- The struct-shaped payload arm generated for
`Gcp { secret, version }`; the optional `version` defaults to `none`
when absent. -/
def decodeGcpFields (v : HoconValue) : Except DecodeError SecretAllocation :=
  match v with
  | .obj entries =>
    match entries.lookup "secret" with
    | none => .error (.missingField "secret")
    | some sv =>
      match decodeString sv with
      | .error e => .error e
      | .ok s =>
        match entries.lookup "version" with
        | none => .ok (.Gcp s none)
        | some vv => (decodeOptString vv).map (.Gcp s)
  | _ => .error (.invalidType "expected a map of fields")

def secretAllocationArms :
    List (String × (HoconValue → Except DecodeError SecretAllocation)) :=
  [("literal", fun v => (decodeEncodedValueHocon v).map .Literal),
    ("file", fun v => (decodeString v).map .File),
    ("gpg", decodeGpgFields),
    ("gcp", decodeGcpFields)]

def secretAllocationVariantNames : List String := ["literal", "file", "gpg", "gcp"]

/-- The codec instantiated at `SecretAllocation`, as the `HoconEnum`
derive would generate it for that enum's shape. -/
def decodeSecretAllocation : HoconValue → Except DecodeError SecretAllocation :=
  deserialize_hocon_enum secretAllocationArms secretAllocationVariantNames

/-! ## Prompt accounting over a run

A run of one `PgpManager` is a sequence of `unlock_key` calls
threading the cache; `unlockSeqCount` counts the password prompts
issued for one particular primary-key fingerprint along the run. -/

def unlockSeqCount (w : PgpWorld) (fp : String) : PgpState → List String → Nat
  | _, [] => 0
  | cache, m :: rest =>
    match unlock_key w cache m with
    | .error _ => unlockSeqCount w fp cache rest
    | .ok (uk, cache1, n) =>
      (if uk.fingerprint = fp then n else 0) + unlockSeqCount w fp cache1 rest

/-- A certificate with a single password-protected secret key, for
concrete evaluation. -/
def pgpWitnessCert : Cert :=
  { fingerprint := "FP1",
    keys := [{ hasSecret := true, policyOk := true, alive := true,
               revoked := false, encrypted := true, keyId := 0 }] }

/-- A concrete oracle world: "KEY1" parses to `pgpWitnessCert`, the
prompt answers "hunter2", all other operations fail. -/
def pgpWitnessWorld : PgpWorld :=
  { parseCert := fun s => if s = "KEY1" then .ok pgpWitnessCert else .error "parse",
    prompt := fun _ => "hunter2",
    deriveWithPassword := fun _ _ => none,
    deriveUnencrypted := fun _ => none,
    parseMessage := fun _ => .error "msg",
    pkeskDecrypt := fun _ _ => none,
    sessionAccept := fun _ => false,
    plaintext := fun _ => .error "pt" }

/-- A certificate with two password-protected candidate subkeys, for
concrete evaluation of the decrypt loop. -/
def c4Cert : Cert :=
  { fingerprint := "FP4",
    keys := [
      { hasSecret := true, policyOk := true, alive := true, revoked := false,
        encrypted := true, keyId := 0 },
      { hasSecret := true, policyOk := true, alive := true, revoked := false,
        encrypted := true, keyId := 1 }] }

/-- A concrete oracle world in which every password-based derivation
fails (a wrong password): "KEY4" parses to `c4Cert` and "MSG4" parses
to a message proposing one PKESK packet. -/
def c4World : PgpWorld :=
  { parseCert := fun s => if s = "KEY4" then .ok c4Cert else .error "parse",
    prompt := fun _ => "wrongpw",
    deriveWithPassword := fun _ _ => none,
    deriveUnencrypted := fun _ => none,
    parseMessage := fun s => if s = "MSG4" then .ok [7] else .error "msg",
    pkeskDecrypt := fun _ _ => none,
    sessionAccept := fun _ => false,
    plaintext := fun _ => .error "pt" }

/-- A world whose PGP oracles all fail; plain contents never reach
them. -/
def c1World : PgpWorld :=
  { parseCert := fun _ => .error "parse",
    prompt := fun _ => "",
    deriveWithPassword := fun _ _ => none,
    deriveUnencrypted := fun _ => none,
    parseMessage := fun _ => .error "msg",
    pkeskDecrypt := fun _ _ => none,
    sessionAccept := fun _ => false,
    plaintext := fun _ => .error "pt" }

/-- Backends whose subprocess oracles all fail; plain contents never
reach them. -/
def c1Backends : Backends :=
  { fileRead := fun _ => .error "fs",
    gpgExportRun := fun _ => { success := false, stdout := [], stderr := "" },
    gpgDecryptRun := fun _ => { success := false, stdout := [], stderr := "" },
    gcloudRun := fun _ => { success := false, stdout := [], stderr := "" } }

/-! # Theorems settling the claims -/

/-- C5: resolving `EncodedValue::Literal(s)` returns `s` unchanged;
resolving `EncodedValue::Base64(s)` returns the UTF-8 text of the
base64 decoding when both stages succeed, and otherwise fails with the
decode error naming the failing stage (base64 vs UTF-8). -/
theorem claim_C5 :
    (∀ s, EncodedValue.get_value (.Literal s) = .ok s) ∧
    (∀ s bytes t, base64Decode s = some bytes → utf8Decode bytes = some t →
      EncodedValue.get_value (.Base64 s) = .ok t) ∧
    (∀ s, base64Decode s = none →
      EncodedValue.get_value (.Base64 s) = .error "Failed to decode base64 value") ∧
    (∀ s bytes, base64Decode s = some bytes → utf8Decode bytes = none →
      EncodedValue.get_value (.Base64 s) = .error "Decoded value is not valid UTF-8") := by
  refine ⟨fun s => rfl, ?_, ?_, ?_⟩
  · intro s bytes t h1 h2
    simp [EncodedValue.get_value, h1, h2]
  · intro s h1
    simp [EncodedValue.get_value, h1]
  · intro s bytes h1 h2
    simp [EncodedValue.get_value, h1, h2]

/-- C5 witness: both hypotheses of the base64 success case discharged
at the concrete input "aGVsbG8=". -/
theorem claim_C5_witness :
    base64Decode "aGVsbG8=" = some [104, 101, 108, 108, 111] ∧
    utf8Decode [104, 101, 108, 108, 111] = some "hello" ∧
    EncodedValue.get_value (.Base64 "aGVsbG8=") = .ok "hello" :=
  ⟨by rfl, by rfl,
    claim_C5.2.1 "aGVsbG8=" [104, 101, 108, 108, 111] "hello" (by rfl) (by rfl)⟩

/-- C9: under a dev build whose package version is exactly "0.0.0",
`validate_version` returns Ok (without the warning) for every manifest
version string, parseable or not. -/
theorem claim_C9 : ∀ v, validate_version "0.0.0" v = .ok false := by
  intro v
  rfl

/-- C3 counterexample: a manifest version with the same major but a
strictly newer minor than the binary ("1.1.0" against "1.0.0") makes
`validate_version` return an error, not Ok: the `config_version >
cli_version` check fires before the minor-version warning branch. -/
theorem claim_C3_cex :
    semverParse "1.0.0" = some { major := 1, minor := 0, patch := 0, pre := [] } ∧
    semverParse "1.1.0" = some { major := 1, minor := 1, patch := 0, pre := [] } ∧
    validate_version "1.0.0" "1.1.0" =
      .error "Config version is newer than CLI version. Please upgrade the CLI." :=
  ⟨by rfl, by rfl, by rfl⟩

/-- C3 amended: for every manifest whose version has the same major
component as the (non-dev) running binary but a strictly newer minor
component, `validate_version` fails with the "config newer than CLI"
error; the non-fatal minor-version warning branch is unreachable — no
Ok result ever carries the warning flag. -/
theorem claim_C3 :
    (∀ cliStr cfgStr cli cfg,
      cliStr ≠ "0.0.0" →
      semverParse cliStr = some cli →
      semverParse cfgStr = some cfg →
      cfg.major = cli.major →
      cli.minor < cfg.minor →
      validate_version cliStr cfgStr =
        .error "Config version is newer than CLI version. Please upgrade the CLI.") ∧
    (∀ cliStr cfgStr r, validate_version cliStr cfgStr = .ok r → r = false) := by
  constructor
  · intro cliStr cfgStr cli cfg hne h1 h2 hmaj hmin
    have hlt : semverLtB cli cfg = true := by
      simp [semverLtB, hmaj, hmin]
    simp [validate_version, h1, h2, hne, hmaj, hlt]
  · intro cliStr cfgStr r h
    unfold validate_version at h
    cases hp : semverParse cliStr with
    | none => rw [hp] at h; cases h
    | some cli =>
      rw [hp] at h
      dsimp only at h
      by_cases h0 : cliStr = "0.0.0"
      · rw [if_pos h0] at h
        cases h
        rfl
      · rw [if_neg h0] at h
        cases hq : semverParse cfgStr with
        | none => rw [hq] at h; cases h
        | some cfg =>
          rw [hq] at h
          dsimp only at h
          by_cases hm : cfg.major ≠ cli.major
          · rw [if_pos hm] at h; cases h
          · rw [if_neg hm] at h
            push_neg at hm
            by_cases hl : semverLtB cli cfg = true
            · rw [if_pos hl] at h; cases h
            · rw [if_neg hl] at h
              have hnm : ¬ (cli.minor < cfg.minor) := by
                intro hlt2
                exact hl (by simp [semverLtB, hm, hlt2])
              cases h
              exact decide_eq_false hnm

/-- C3 witness: the amended theorem applied at the concrete binary
version "1.2.3" and manifest version "1.5.0". -/
theorem claim_C3_witness :
    validate_version "1.2.3" "1.5.0" =
      .error "Config version is newer than CLI version. Please upgrade the CLI." :=
  claim_C3.1 "1.2.3" "1.5.0" { major := 1, minor := 2, patch := 3, pre := [] }
    { major := 1, minor := 5, patch := 0, pre := [] }
    (by decide) (by rfl) (by rfl) (by rfl) (by decide)

/-- The first element surviving `dropWhile p` does not satisfy `p`. -/
theorem dropWhile_head_not (p : Char → Bool) :
    ∀ (l : List Char) (c : Char), (l.dropWhile p).head? = some c → p c = false := by
  intro l
  induction l with
  | nil => intro c h; simp [List.dropWhile] at h
  | cons a t ih =>
    intro c h
    rw [List.dropWhile_cons] at h
    by_cases hp : p a
    · rw [if_pos hp] at h
      exact ih c h
    · rw [if_neg hp] at h
      simp only [List.head?_cons, Option.some.injEq] at h
      subst h
      simpa using hp

/-- C10: for every successful cloud-secret fetch (GCP or AWS), the
returned text is the subprocess's standard output with every trailing
newline or carriage-return character stripped: the result is a prefix
of stdout, the removed tail consists only of such characters, and the
result no longer ends in one. -/
theorem claim_C10 :
    (∀ run spec call value,
      gcpPlan spec = .ok call →
      (run call).success = true →
      utf8Decode (run call).stdout = some value →
      gcp_access_secret run spec = .ok (trimEndNewlineCR value)) ∧
    (∀ run spec value,
      (run (aws_cli_args spec)).success = true →
      utf8Decode (run (aws_cli_args spec)).stdout = some value →
      aws_access_secret run spec = .ok (trimEndNewlineCR value)) ∧
    (∀ s : String, ∃ tail : List Char,
      s.data = (trimEndNewlineCR s).data ++ tail ∧
      (∀ c ∈ tail, c = '\n' ∨ c = '\r') ∧
      (∀ c, (trimEndNewlineCR s).data.getLast? = some c → ¬(c = '\n' ∨ c = '\r'))) := by
  refine ⟨?_, ?_, ?_⟩
  · intro run spec call value hplan hs hv
    simp [gcp_access_secret, hplan, postprocessCliOutput, hs, hv]
  · intro run spec value hs hv
    simp [aws_access_secret, postprocessCliOutput, hs, hv]
  · intro s
    refine ⟨(s.data.reverse.takeWhile (fun c => c = '\n' || c = '\r')).reverse, ?_, ?_, ?_⟩
    · show s.data =
        (s.data.reverse.dropWhile (fun c => c = '\n' || c = '\r')).reverse ++
          (s.data.reverse.takeWhile (fun c => c = '\n' || c = '\r')).reverse
      calc s.data = s.data.reverse.reverse := (List.reverse_reverse _).symm
        _ = (s.data.reverse.takeWhile (fun c => c = '\n' || c = '\r') ++
              s.data.reverse.dropWhile (fun c => c = '\n' || c = '\r')).reverse := by
            rw [List.takeWhile_append_dropWhile]
        _ = _ := List.reverse_append _ _
    · intro c hc
      have hmem : c ∈ s.data.reverse.takeWhile (fun c => c = '\n' || c = '\r') :=
        List.mem_reverse.mp hc
      have hp := List.mem_takeWhile_imp hmem
      simpa using hp
    · intro c hc
      have hc2 : ((s.data.reverse.dropWhile (fun c => c = '\n' || c = '\r')).reverse).getLast?
          = some c := hc
      rw [List.getLast?_reverse] at hc2
      have := dropWhile_head_not (fun c => c = '\n' || c = '\r') _ _ hc2
      simpa using this

/-- C10 witness: a GCP fetch whose stdout is the bytes of "hi\n\r\n"
returns "hi". -/
theorem claim_C10_witness :
    gcpPlan { secret := "projects/p/secrets/s", version := none } =
      .ok { version := "latest", secretName := "s", project := "p" } ∧
    utf8Decode [104, 105, 10, 13, 10] = some "hi\n\r\n" ∧
    trimEndNewlineCR "hi\n\r\n" = "hi" ∧
    gcp_access_secret (fun _ => { success := true, stdout := [104, 105, 10, 13, 10], stderr := "" })
        { secret := "projects/p/secrets/s", version := none } =
      .ok (trimEndNewlineCR "hi\n\r\n") :=
  ⟨by rfl, by rfl, by rfl,
    claim_C10.1 (fun _ => { success := true, stdout := [104, 105, 10, 13, 10], stderr := "" })
      { secret := "projects/p/secrets/s", version := none }
      { version := "latest", secretName := "s", project := "p" }
      "hi\n\r\n" (by rfl) (by rfl) (by rfl)⟩

/-- C8 counterexample: "projects/p/secrets/s/bogus/x" does not match
the form `projects/<project>/secrets/<name>[/versions/<version>]`, yet
`parse_project_and_secret` accepts it and `access_secret` proceeds to
the `gcloud` subprocess — the outcome depends on the subprocess
oracle, so an external call is made for this malformed identifier. -/
theorem claim_C8_cex :
    gcpSpecResourceForm "projects/p/secrets/s/bogus/x" = false ∧
    parse_project_and_secret "projects/p/secrets/s/bogus/x" = .ok ("p", "s") ∧
    gcp_access_secret (fun _ => { success := true, stdout := [97], stderr := "" })
        { secret := "projects/p/secrets/s/bogus/x", version := none } = .ok "a" ∧
    gcp_access_secret (fun _ => { success := false, stdout := [], stderr := "boom" })
        { secret := "projects/p/secrets/s/bogus/x", version := none } =
      .error "gcloud failed: boom" :=
  ⟨by rfl, by rfl, by rfl, by rfl⟩

/-- C8 amended: the identifier is validated only by the split check of
`parse_project_and_secret` — at least four '/'-separated parts with
"projects" first and "secrets" third; an identifier failing that check
fails resolution before any external call (the result is the format
error, independent of the subprocess oracle).  Every identifier of the
spec's `projects/<p>/secrets/<name>[/versions/<v>]` form passes the
check, but so do identifiers with arbitrary extra trailing segments. -/
theorem claim_C8 :
    (∀ spec : GcpSecretSpec, ∀ e, parse_project_and_secret spec.secret = .error e →
      ∀ run run2 : GcloudCall → ExecOutput,
        gcp_access_secret run spec =
          .error "Invalid GCP secret format. Expected 'projects/<project>/secrets/<name>'" ∧
        gcp_access_secret run spec = gcp_access_secret run2 spec) ∧
    (∀ fqn, gcpSpecResourceForm fqn = true →
      ∃ projectName secretName,
        parse_project_and_secret fqn = .ok (projectName, secretName)) := by
  constructor
  · intro spec e h run run2
    constructor
    · simp [gcp_access_secret, gcpPlan, h]
    · simp [gcp_access_secret, gcpPlan, h]
  · intro fqn h
    unfold gcpSpecResourceForm at h
    split at h
    · rename_i p n heq
      exact ⟨p, n, by simp [parse_project_and_secret, heq]⟩
    · rename_i p n v heq
      exact ⟨p, n, by simp [parse_project_and_secret, heq]⟩
    · cases h

/-- C8 witness: the identifier "bogus" fails the split check and the
fetch result is the format error whatever the subprocess oracle is. -/
theorem claim_C8_witness :
    gcp_access_secret (fun _ => { success := true, stdout := [97], stderr := "" })
        { secret := "bogus", version := none } =
      .error "Invalid GCP secret format. Expected 'projects/<project>/secrets/<name>'" ∧
    gcp_access_secret (fun _ => { success := true, stdout := [97], stderr := "" })
        { secret := "bogus", version := none } =
      gcp_access_secret (fun _ => { success := false, stdout := [], stderr := "x" })
        { secret := "bogus", version := none } :=
  claim_C8.1 { secret := "bogus", version := none } "Invalid secret resource: bogus"
    (by rfl) _ _

/-- C6: the tagged-union codec selects the variant by the single key's
lowercased name (case-insensitively) and decodes the payload by the
variant's shape: any key lowercasing to "file" with a string payload
yields `File`, any key lowercasing to "gpg" with a `{fingerprint}` map
payload yields `Gpg`; in particular the claim's two concrete examples
decode as stated. -/
theorem claim_C6 :
    (∀ k p, strToLower k = "file" →
      decodeSecretAllocation (.obj [(k, .str p)]) = .ok (.File p)) ∧
    (∀ k f, strToLower k = "gpg" →
      decodeSecretAllocation (.obj [(k, .obj [("fingerprint", .str f)])]) =
        .ok (.Gpg f)) ∧
    decodeSecretAllocation (.obj [("file", .str "/tmp/x")]) = .ok (.File "/tmp/x") ∧
    decodeSecretAllocation (.obj [("gpg", .obj [("fingerprint", .str "ABCD")])]) =
      .ok (.Gpg "ABCD") := by
  refine ⟨?_, ?_, by rfl, by rfl⟩
  · intro k p hk
    simp only [decodeSecretAllocation, deserialize_hocon_enum, deserialize_from_map]
    rw [hk]
    rfl
  · intro k f hk
    simp only [decodeSecretAllocation, deserialize_hocon_enum, deserialize_from_map]
    rw [hk]
    rfl

/-- C6 witness: a mixed-case selector "FiLe" decodes to the `File`
variant, discharging the case-insensitivity hypothesis concretely. -/
theorem claim_C6_witness :
    decodeSecretAllocation (.obj [("FiLe", .str "/tmp/x")]) = .ok (.File "/tmp/x") :=
  claim_C6.1 "FiLe" "/tmp/x" (by rfl)

/-- C7 counterexample: decoding the empty map fails with the custom
error text "expected enum variant" (hocon.rs line 35), not with
"expected a variant selector" as claimed. -/
theorem claim_C7_cex :
    decodeSecretAllocation (.obj []) = .error (.custom "expected enum variant") ∧
    DecodeError.custom "expected enum variant" ≠
      DecodeError.custom "expected a variant selector" :=
  ⟨by rfl, by decide⟩

/-- C7 amended: a selector matching no variant name case-insensitively
fails with serde's unknown-variant error naming the input key and
listing all valid variant names; an input map with zero keys fails
with the custom error "expected enum variant" (the code's wording for
the missing variant selector). -/
theorem claim_C7 :
    (∀ k v, strToLower k ∉ secretAllocationVariantNames →
      decodeSecretAllocation (.obj [(k, v)]) =
        .error (.unknownVariant k secretAllocationVariantNames)) ∧
    decodeSecretAllocation (.obj []) = .error (.custom "expected enum variant") := by
  constructor
  · intro k v h
    simp only [secretAllocationVariantNames, List.mem_cons, List.not_mem_nil,
      or_false, not_or] at h
    obtain ⟨h1, h2, h3, h4⟩ := h
    have e1 : (strToLower k == "literal") = false := beq_eq_false_iff_ne.mpr h1
    have e2 : (strToLower k == "file") = false := beq_eq_false_iff_ne.mpr h2
    have e3 : (strToLower k == "gpg") = false := beq_eq_false_iff_ne.mpr h3
    have e4 : (strToLower k == "gcp") = false := beq_eq_false_iff_ne.mpr h4
    simp [decodeSecretAllocation, deserialize_hocon_enum, deserialize_from_map,
      secretAllocationArms, secretAllocationVariantNames, List.lookup,
      e1, e2, e3, e4]
  · rfl

/-- C7 witness: the selector "bogus" fails with the unknown-variant
error listing `literal, file, gpg, gcp`. -/
theorem claim_C7_witness :
    decodeSecretAllocation (.obj [("bogus", .obj [])]) =
      .error (.unknownVariant "bogus" ["literal", "file", "gpg", "gcp"]) :=
  claim_C7.1 "bogus" (.obj []) (by decide)

/-- Cache hit: `unlock_key` returns the cached certificate and
password with zero prompts and an unchanged cache. -/
theorem unlock_key_cached (w : PgpWorld) (cache : PgpState) (m : String)
    (cert : Cert) (ck : CachedKey)
    (hp : w.parseCert m = .ok cert)
    (hl : List.lookup cert.fingerprint cache = some ck) :
    unlock_key w cache m =
      .ok ({ cert := ck.cert, fingerprint := cert.fingerprint,
             password := ck.password }, cache, 0) := by
  simp [unlock_key, hp, hl]

/-- Inversion of a successful `unlock_key` call. -/
theorem unlock_key_ok_inv (w : PgpWorld) (cache : PgpState) (m : String)
    (uk : UnlockedKey) (st1 : PgpState) (n : Nat)
    (h : unlock_key w cache m = .ok (uk, st1, n)) :
    ∃ cert, w.parseCert m = .ok cert ∧ uk.fingerprint = cert.fingerprint ∧
      ((∃ ck, List.lookup cert.fingerprint cache = some ck ∧
          uk = { cert := ck.cert, fingerprint := cert.fingerprint,
                 password := ck.password } ∧
          st1 = cache ∧ n = 0) ∨
        (List.lookup cert.fingerprint cache = none ∧
          uk = { cert := cert, fingerprint := cert.fingerprint,
                 password := if needs_password cert then
                   some (w.prompt cert.fingerprint) else none } ∧
          st1 = (cert.fingerprint,
            { cert := cert, password := uk.password }) :: cache ∧
          n = (if needs_password cert then 1 else 0))) := by
  unfold unlock_key at h
  cases hp : w.parseCert m with
  | error e => rw [hp] at h; cases h
  | ok cert =>
    rw [hp] at h
    dsimp only at h
    cases hl : List.lookup cert.fingerprint cache with
    | some ck =>
      rw [hl] at h
      dsimp only at h
      injection h with h
      simp only [Prod.mk.injEq] at h
      obtain ⟨h1, h2, h3⟩ := h
      exact ⟨cert, rfl, by rw [← h1], Or.inl ⟨ck, hl, h1.symm, h2.symm, h3.symm⟩⟩
    | none =>
      rw [hl] at h
      dsimp only at h
      injection h with h
      simp only [Prod.mk.injEq] at h
      obtain ⟨h1, h2, h3⟩ := h
      refine ⟨cert, rfl, by rw [← h1], Or.inr ⟨hl, h1.symm, ?_, h3.symm⟩⟩
      rw [← h2, ← h1]

/-- A successful unlock issues at most one prompt. -/
theorem unlock_key_prompt_le (w : PgpWorld) (cache : PgpState) (m : String)
    (uk : UnlockedKey) (st1 : PgpState) (n : Nat)
    (h : unlock_key w cache m = .ok (uk, st1, n)) : n ≤ 1 := by
  obtain ⟨cert, _, _, hcase⟩ := unlock_key_ok_inv w cache m uk st1 n h
  rcases hcase with ⟨ck, _, _, _, hn⟩ | ⟨_, _, _, hn⟩
  · omega
  · rw [hn]; split <;> omega

/-- Unlocking never evicts a cached fingerprint. -/
theorem unlock_key_keeps (w : PgpWorld) (cache : PgpState) (m : String)
    (uk : UnlockedKey) (st1 : PgpState) (n : Nat)
    (h : unlock_key w cache m = .ok (uk, st1, n)) :
    ∀ fp, (List.lookup fp cache).isSome → (List.lookup fp st1).isSome := by
  intro fp hfp
  obtain ⟨cert, _, _, hcase⟩ := unlock_key_ok_inv w cache m uk st1 n h
  rcases hcase with ⟨ck, _, _, hst, _⟩ | ⟨_, _, hst, _⟩
  · rw [hst]; exact hfp
  · rw [hst]
    cases he : fp == cert.fingerprint <;> simp [List.lookup, he, hfp]

/-- After a successful unlock the fingerprint maps to the returned
certificate and password in the cache. -/
theorem unlock_key_caches (w : PgpWorld) (cache : PgpState) (m : String)
    (uk : UnlockedKey) (st1 : PgpState) (n : Nat)
    (h : unlock_key w cache m = .ok (uk, st1, n)) :
    List.lookup uk.fingerprint st1 = some { cert := uk.cert, password := uk.password } := by
  obtain ⟨cert, _, hfpr, hcase⟩ := unlock_key_ok_inv w cache m uk st1 n h
  rcases hcase with ⟨ck, hl, huk, hst, _⟩ | ⟨_, huk, hst, _⟩
  · rw [hst, hfpr, hl, huk]
  · rw [hst, hfpr]
    simp [List.lookup, huk]

/-- A cached fingerprint is served with zero prompts, leaving the
cache unchanged. -/
theorem unlock_key_hit_zero (w : PgpWorld) (cache : PgpState) (m : String)
    (uk : UnlockedKey) (st1 : PgpState) (n : Nat)
    (h : unlock_key w cache m = .ok (uk, st1, n))
    (hs : (List.lookup uk.fingerprint cache).isSome) : n = 0 ∧ st1 = cache := by
  obtain ⟨cert, _, hfpr, hcase⟩ := unlock_key_ok_inv w cache m uk st1 n h
  rcases hcase with ⟨ck, _, _, hst, hn⟩ | ⟨hl, _, _, _⟩
  · exact ⟨hn, hst⟩
  · rw [hfpr, hl] at hs
    cases hs

/-- Once a fingerprint is in the cache, the rest of the run prompts
zero times for it. -/
theorem unlockSeqCount_zero_of_cached (w : PgpWorld) (fp : String) :
    ∀ (ms : List String) (cache : PgpState),
      (List.lookup fp cache).isSome → unlockSeqCount w fp cache ms = 0 := by
  intro ms
  induction ms with
  | nil => intro cache _; rfl
  | cons m rest ih =>
    intro cache h
    cases hu : unlock_key w cache m with
    | error e => simp [unlockSeqCount, hu]; exact ih cache h
    | ok r =>
      obtain ⟨uk, st1, n⟩ := r
      have hk := unlock_key_keeps w cache m uk st1 n hu fp h
      by_cases hfp : uk.fingerprint = fp
      · obtain ⟨hn, _⟩ := unlock_key_hit_zero w cache m uk st1 n hu (by rw [hfp]; exact h)
        simp [unlockSeqCount, hu, hfp, hn, ih st1 hk]
      · simp [unlockSeqCount, hu, hfp, ih st1 hk]

/-- Along any run, at most one prompt is issued per fingerprint. -/
theorem unlockSeqCount_le_one (w : PgpWorld) (fp : String) :
    ∀ (ms : List String) (cache : PgpState), unlockSeqCount w fp cache ms ≤ 1 := by
  intro ms
  induction ms with
  | nil => intro cache; simp [unlockSeqCount]
  | cons m rest ih =>
    intro cache
    cases hu : unlock_key w cache m with
    | error e => simp [unlockSeqCount, hu]; exact ih cache
    | ok r =>
      obtain ⟨uk, st1, n⟩ := r
      by_cases hfp : uk.fingerprint = fp
      · have hc := unlock_key_caches w cache m uk st1 n hu
        have hs : (List.lookup fp st1).isSome := by rw [← hfp]; simp [hc]
        have hz := unlockSeqCount_zero_of_cached w fp rest st1 hs
        have hn := unlock_key_prompt_le w cache m uk st1 n hu
        simp [unlockSeqCount, hu, hfp, hz]
        omega
      · simp [unlockSeqCount, hu, hfp]
        exact ih st1

/-- C2: within one `PgpManager` run, at most one password prompt per
distinct primary-key fingerprint: any run from a fresh cache prompts
at most once for a fingerprint; a fresh unlock of a protected key
prompts once and caches certificate and password under the
fingerprint; any later unlock of material with the same fingerprint
returns the cached certificate and password with zero prompts and an
unchanged cache. -/
theorem claim_C2 (w : PgpWorld) :
    (∀ fp ms, unlockSeqCount w fp [] ms ≤ 1) ∧
    (∀ cache m cert,
      w.parseCert m = .ok cert →
      List.lookup cert.fingerprint cache = none →
      needs_password cert = true →
      unlock_key w cache m =
        .ok ({ cert := cert, fingerprint := cert.fingerprint,
               password := some (w.prompt cert.fingerprint) },
          (cert.fingerprint,
            { cert := cert, password := some (w.prompt cert.fingerprint) }) :: cache,
          1)) ∧
    (∀ cache m1 m2 uk st1 n cert2,
      unlock_key w cache m1 = .ok (uk, st1, n) →
      w.parseCert m2 = .ok cert2 →
      cert2.fingerprint = uk.fingerprint →
      unlock_key w st1 m2 =
        .ok ({ cert := uk.cert, fingerprint := uk.fingerprint,
               password := uk.password }, st1, 0)) := by
  refine ⟨fun fp ms => unlockSeqCount_le_one w fp ms [], ?_, ?_⟩
  · intro cache m cert hp hl hn
    simp [unlock_key, hp, hl, hn]
  · intro cache m1 m2 uk st1 n cert2 h1 h2 h3
    have hc := unlock_key_caches w cache m1 uk st1 n h1
    have := unlock_key_cached w st1 m2 cert2
      { cert := uk.cert, password := uk.password } h2 (by rw [h3]; exact hc)
    rw [h3] at this
    exact this

/-- C2 witness: with the concrete oracle world, unlocking "KEY1" from
an empty cache prompts once; unlocking it again from the resulting
cache prompts zero times and returns the cached data. -/
theorem claim_C2_witness :
    unlock_key pgpWitnessWorld [] "KEY1" =
      .ok ({ cert := pgpWitnessCert, fingerprint := "FP1",
             password := some "hunter2" },
        [("FP1", { cert := pgpWitnessCert, password := some "hunter2" })], 1) ∧
    unlock_key pgpWitnessWorld
        [("FP1", { cert := pgpWitnessCert, password := some "hunter2" })] "KEY1" =
      .ok ({ cert := pgpWitnessCert, fingerprint := "FP1",
             password := some "hunter2" },
        [("FP1", { cert := pgpWitnessCert, password := some "hunter2" })], 0) := by
  have h1 := (claim_C2 pgpWitnessWorld).2.1 [] "KEY1" pgpWitnessCert
    (by rfl) (by rfl) (by rfl)
  have h2 := (claim_C2 pgpWitnessWorld).2.2 []
    "KEY1" "KEY1"
    { cert := pgpWitnessCert, fingerprint := "FP1", password := some "hunter2" }
    [("FP1", { cert := pgpWitnessCert, password := some "hunter2" })] 1
    pgpWitnessCert h1 (by rfl) (by rfl)
  exact ⟨h1, h2⟩

/-- C4: in the decrypt candidate loop, failure to derive usable key
material from a password-protected subkey with the cached password is
not fatal — the subkey is skipped and the loop continues; when no
candidate yields an accepted session key, decryption fails with
"unable to decrypt: no matching key found"; and a password failing on
every subkey exhausts the loop the same way, so a wrong password is
indistinguishable from having no matching key. -/
theorem claim_C4 :
    (∀ (w : PgpWorld) (pw : String) (pkesks : List Nat) (k : SubKey)
        (rest : List SubKey),
      k.encrypted = true →
      w.deriveWithPassword k.keyId pw = none →
      helperLoop w (some pw) pkesks (k :: rest) = helperLoop w (some pw) pkesks rest) ∧
    (∀ (w : PgpWorld) (cache : PgpState) (key data : String) (uk : UnlockedKey)
        (st1 : PgpState) (n : Nat) (pkesks : List Nat),
      unlock_key w cache key = .ok (uk, st1, n) →
      w.parseMessage data = .ok pkesks →
      helperLoop w uk.password pkesks (pgpCandidates uk.cert) = false →
      pgp_manager_decrypt w cache key data =
        .error "unable to decrypt: no matching key found") ∧
    (∀ (w : PgpWorld) (pw : String) (pkesks : List Nat) (ks : List SubKey),
      (∀ k ∈ ks, k.encrypted = true) →
      (∀ kid pw2, w.deriveWithPassword kid pw2 = none) →
      helperLoop w (some pw) pkesks ks = false) := by
  refine ⟨?_, ?_, ?_⟩
  · intro w pw pkesks k rest hk hd
    simp [helperLoop, hk, hd]
  · intro w cache key data uk st1 n pkesks h1 h2 h3
    simp [pgp_manager_decrypt, h1, h2, helper_decrypt, h3]
  · intro w pw pkesks ks henc hd
    induction ks with
    | nil => rfl
    | cons k rest ih =>
      have hk : k.encrypted = true := henc k (List.mem_cons_self k rest)
      simp [helperLoop, hk, hd]
      exact ih (fun k2 hm => henc k2 (List.mem_cons_of_mem k hm))

/-- C4 witness: with a wrong password (every derivation fails) and a
certificate with two protected candidate subkeys, the whole decrypt
fails with exactly the no-matching-key error. -/
theorem claim_C4_witness :
    pgp_manager_decrypt c4World [] "KEY4" "MSG4" =
      .error "unable to decrypt: no matching key found" :=
  claim_C4.2.1 c4World [] "KEY4" "MSG4"
    { cert := c4Cert, fingerprint := "FP4", password := some "wrongpw" }
    [("FP4", { cert := c4Cert, password := some "wrongpw" })] 1 [7]
    (by rfl) (by rfl) (by rfl)

/-- Helper: when the files loop succeeds, every file was written. -/
theorem processFilesLoop_ok_length (w : PgpWorld) (bk : Backends)
    (fsE : String → Bool) (force : Bool) :
    ∀ (files : List (String × Content)) (cache : PgpState) (st : PgpState),
      (processFilesLoop w bk fsE force cache files).1 = .ok st →
      (processFilesLoop w bk fsE force cache files).2.length = files.length := by
  intro files
  induction files with
  | nil => intro cache st _; rfl
  | cons f rest ih =>
    intro cache st h
    obtain ⟨path, c⟩ := f
    by_cases hex : (fsE path && !force) = true
    · simp [processFilesLoop, hex] at h
    · rw [Bool.not_eq_true] at hex
      cases hc : Content.get_value w bk cache c with
      | error e => simp [processFilesLoop, hex, hc] at h
      | ok r =>
        obtain ⟨v, cache1⟩ := r
        simp only [processFilesLoop, hex, hc, Bool.false_eq_true, if_false,
          List.length_cons] at h ⊢
        exact congrArg Nat.succ (ih cache1 st h)

/-- C1 counterexample: a profile with no variables and two files, the
first resolving to "x" and the second failing base64 decoding — the
run fails, yet the first file's contents were already written to disk,
refuting "commits nothing". -/
theorem claim_C1_cex :
    run_unlock c1World c1Backends (fun _ => false) false []
      [("f1", .Plain (.Literal "x")), ("f2", .Plain (.Base64 "%%%"))] =
      (.error "Failed to decode base64 value", [("f1", "x")]) := by rfl

/-- C1 amended: variable resolution aborts on the first failing
variable with nothing committed — no file write happens and the
environment mapping is not handed on (the result is the error); on
overall success the environment is exactly the resolved variables and
every file was written; but file contents are written one at a time as
each file resolves, so files earlier in the iteration order remain
written when a later file fails. -/
theorem claim_C1 :
    (∀ w bk fsE force vars files e,
      resolveVarsLoop w bk [] vars = .error e →
      run_unlock w bk fsE force vars files = (.error e, [])) ∧
    (∀ w bk fsE force vars files env writes,
      run_unlock w bk fsE force vars files = (.ok env, writes) →
      (∃ cache1, resolveVarsLoop w bk [] vars = .ok (env, cache1)) ∧
      writes.length = files.length) ∧
    (∀ w bk fsE force cache path c v cache1 rest,
      (fsE path && !force) = false →
      Content.get_value w bk cache c = .ok (v, cache1) →
      (processFilesLoop w bk fsE force cache ((path, c) :: rest)).2 =
        (path, v) :: (processFilesLoop w bk fsE force cache1 rest).2) := by
  refine ⟨?_, ?_, ?_⟩
  · intro w bk fsE force vars files e h
    simp [run_unlock, h]
  · intro w bk fsE force vars files env writes h
    unfold run_unlock at h
    cases hv : resolveVarsLoop w bk [] vars with
    | error e => rw [hv] at h; cases h
    | ok r =>
      obtain ⟨env0, cache1⟩ := r
      rw [hv] at h
      dsimp only at h
      rcases hp : processFilesLoop w bk fsE force cache1 files with ⟨res, ws⟩
      rw [hp] at h
      cases res with
      | error e => cases h
      | ok st =>
        injection h with h1 h2
        injection h1 with h1
        subst h1
        subst h2
        refine ⟨⟨cache1, hv ▸ rfl⟩, ?_⟩
        have : (processFilesLoop w bk fsE force cache1 files).1 = .ok st := by
          rw [hp]
        have hl := processFilesLoop_ok_length w bk fsE force files cache1 st this
        rw [hp] at hl
        exact hl
  · intro w bk fsE force cache path c v cache1 rest hex hget
    simp [processFilesLoop, hex, hget]

/-- C1 witness: a failing variable aborts the run with no file writes
at all, even though the profile's single file would have resolved. -/
theorem claim_C1_witness :
    run_unlock c1World c1Backends (fun _ => false) false
      [("V", .Plain (.Base64 "%%%"))] [("f", .Plain (.Literal "y"))] =
      (.error "Failed to decode base64 value", []) :=
  claim_C1.1 c1World c1Backends (fun _ => false) false
    [("V", .Plain (.Base64 "%%%"))] [("f", .Plain (.Literal "y"))]
    "Failed to decode base64 value" (by rfl)

end Secenv
